import Mathlib

/-!
Verification of the identity-resolution and payroll core of the Referee Pay
App (source files `src/utils/refereeMatcher.ts` and `src/utils/category.ts`).

Modelling conventions:
* JavaScript numbers are modelled as exact rationals (`ℚ`); all the payroll
  and scoring formulas are rational-valued identities.
* `localStorage` is modelled by passing the stored state explicitly: the
  mapping cache and the referee registry are arguments, mutation operations
  return the new state (or an `Except` error, matching a thrown `Error`).
* JavaScript strings are modelled as `String` / `List Char`.
  `String.prototype.toLowerCase` composed with `normalize('NFD')` plus the
  combining-mark strip is modelled per character by `Char.toLower` followed
  by `stripDiacritic`, a table covering the Latin accented letters this
  application's data uses; every other character is unchanged, which agrees
  with the JS pipeline on all characters this table covers.
* `Array.prototype.sort` (ES2019) is a stable sort; the comparator
  `(a, b) => b.confidence - a.confidence` therefore produces the stable
  descending order realised here by `sortByConfidenceDesc`.
-/

namespace RefereePay

/- The Batteries rational-number operations are `@[irreducible]`, which
blocks `decide` on concrete scores even though the kernel reduces them
fine; make them semireducible for this development. -/
attribute [local semireducible] Rat.add Rat.mul Rat.inv Rat.sub

/-- The `Referee` record from `refereeMatcher.ts`. -/
structure Referee where
  employeeNumber : String
  fullName : String
deriving DecidableEq, Repr

/-- Maps an accented Latin letter to its base letter, modelling
`normalize('NFD').replace(/[̀-ͯ]/g, '')` (applied after
`toLowerCase`, whose non-ASCII part is folded into this table). -/
def stripDiacritic (c : Char) : Char :=
  match c with
  | 'á' | 'à' | 'â' | 'ä' | 'ã' | 'Á' | 'À' | 'Â' | 'Ä' | 'Ã' => 'a'
  | 'é' | 'è' | 'ê' | 'ë' | 'É' | 'È' | 'Ê' | 'Ë' => 'e'
  | 'í' | 'ì' | 'î' | 'ï' | 'Í' | 'Ì' | 'Î' | 'Ï' => 'i'
  | 'ó' | 'ò' | 'ô' | 'ö' | 'õ' | 'Ó' | 'Ò' | 'Ô' | 'Ö' | 'Õ' => 'o'
  | 'ú' | 'ù' | 'û' | 'ü' | 'Ú' | 'Ù' | 'Û' | 'Ü' => 'u'
  | 'ñ' | 'Ñ' => 'n'
  | 'ç' | 'Ç' => 'c'
  | _ => c

def isAsciiLowerAlnum (c : Char) : Bool :=
  ('a' ≤ c && c ≤ 'z') || ('0' ≤ c && c ≤ '9')

/-- Per-character part of `normalizeForComparison`: lowercase, strip
diacritics, and replace anything that is not `[a-z0-9]` by a space
(the regex `/[^a-z0-9\s]/g → ' '` plus the later `\s+ → ' '` collapse make
every kind of whitespace equivalent to a single space). -/
def normalizeChar (c : Char) : Char :=
  let c := stripDiacritic c.toLower
  if isAsciiLowerAlnum c then c else ' '

/-- The whitespace-separated words of the character-normalized name;
`split(' ').filter(p => p.length > 0)` of the source. -/
def nameWords (name : String) : List (List Char) :=
  ((name.toList.map normalizeChar).splitOn ' ').filter (fun w => w ≠ [])

/-- Embedding of `normalizeForComparison` from `refereeMatcher.ts`: lowercase, strip
diacritics, replace special characters with spaces, collapse whitespace,
trim. -/
def normalizeForComparison (name : String) : String :=
  String.mk (List.intercalate [' '] (nameWords name))

/-- Embedding of `getNameParts` from `refereeMatcher.ts` (tokens as character lists). -/
def getNameParts (name : String) : List (List Char) :=
  nameWords name

/-- JavaScript `Math.min` on rationals, written so that it evaluates by kernel
reduction. -/
def mathMin (a b : Rat) : Rat := if a <= b then a else b

/-- JavaScript `Math.max` on rationals, written so that it evaluates by kernel
reduction. -/
def mathMax (a b : Rat) : Rat := if a <= b then b else a

/-- Whether `big` starts with `small` (helper for substring containment). -/
def startsWithChars : List Char → List Char → Bool
  | _, [] => true
  | [], _ :: _ => false
  | b :: bs, s :: ss => b = s && startsWithChars bs ss

/-- JavaScript `big.includes(small)`: `small` occurs as a
contiguous substring of `big`. -/
def includesChars (big small : List Char) : Bool :=
  match big with
  | [] => small.isEmpty
  | _ :: bs => startsWithChars big small || includesChars bs small

/-- One row-extension step of the Levenshtein dynamic program: given the
previous row (starting at its diagonal entry), the remaining characters of
`a`, and the entry to the left in the new row, produce the rest of the new
row.  `matrix[i][j] = if b[i-1] = a[j-1] then m[i-1][j-1] else
1 + min (m[i-1][j-1]) (m[i][j-1]) (m[i-1][j])`. -/
def levRowGo (bc : Char) : List Char → List Nat → Nat → List Nat
  | ac :: as, diag :: rest, left =>
      let up := rest.headD 0
      let cur := if bc = ac then diag else 1 + min diag (min left up)
      cur :: levRowGo bc as rest cur
  | _, _, _ => []

/-- Levenshtein distance, the dynamic program of `levenshteinSimilarity`
in `refereeMatcher.ts` (row by row). -/
def levenshtein (a b : List Char) : Nat :=
  let row0 := List.range (a.length + 1)
  let final := b.foldl (fun (st : List Nat × Nat) bc =>
      let i := st.2 + 1
      (i :: levRowGo bc a st.1 i, i)) (row0, 0)
  final.1.getLastD 0

/-- Embedding of `levenshteinSimilarity` from `refereeMatcher.ts`: `1 − distance/maxLen`,
and `1` when both strings are empty. -/
def levenshteinSimilarity (a b : List Char) : ℚ :=
  let maxLen := Nat.max a.length b.length
  if maxLen = 0 then 1 else 1 - (levenshtein a b : ℚ) / (maxLen : ℚ)

/-- Result of the inner token loop of `calculateSimilarity` for one schedule
token: `full` models `matchedParts++`, `near` models the source's
partial-match counter (`partialMatches++`), `nomatch` means the loop ran out
of registry tokens without a `break`. -/
inductive TokenMatchKind where
  | full
  | near
  | nomatch
deriving DecidableEq, Repr

/-- The inner `for (const rp of refParts)` loop of `calculateSimilarity`:
registry tokens are scanned in order and the first one that is equal,
substring-related, or edit-similar (checked in that order) decides the
credit for this schedule token. -/
def tokenMatchKind (sp : List Char) : List (List Char) → TokenMatchKind
  | [] => .nomatch
  | rp :: rest =>
      if sp = rp then .full
      else if includesChars sp rp || includesChars rp sp then .near
      else if sp.length > 2 && rp.length > 2 &&
              decide (levenshteinSimilarity sp rp > 8/10) then .near
      else tokenMatchKind sp rest

/-- The pair of counters of `calculateSimilarity`'s token
matching step. -/
def tokenMatchCounts (schedParts refParts : List (List Char)) : Nat × Nat :=
  (schedParts.countP (fun sp => decide (tokenMatchKind sp refParts = .full)),
   schedParts.countP (fun sp => decide (tokenMatchKind sp refParts = .near)))

/-- Embedding of `calculateSimilarity` from `refereeMatcher.ts` (score 0–100). -/
def calculateSimilarity (scheduleName refereeName : String) : ℚ :=
  let schedNorm := normalizeForComparison scheduleName
  let refNorm := normalizeForComparison refereeName
  if schedNorm = refNorm then 100
  else if includesChars schedNorm.toList refNorm.toList ||
          includesChars refNorm.toList schedNorm.toList then 90
  else
    let schedParts := getNameParts scheduleName
    let refParts := getNameParts refereeName
    let counts := tokenMatchCounts schedParts refParts
    let totalParts := Nat.max schedParts.length refParts.length
    if totalParts = 0 then 0
    else
      let matchScore : ℚ := ((counts.1 : ℚ) / (totalParts : ℚ)) * 80
      let partScore : ℚ := ((counts.2 : ℚ) / (totalParts : ℚ)) * 50
      match schedParts.head?, refParts.head? with
      | some firstSchedWord, some firstRefWord =>
          if firstSchedWord = firstRefWord then
            mathMin 100 (matchScore + partScore + 20)
          else if refParts.any (fun rp =>
              decide (rp = firstSchedWord) && decide (rp.length > 3)) then
            mathMin 100 (matchScore + partScore + 15)
          else
            mathMin 100 (matchScore + partScore)
      | _, _ => mathMin 100 (matchScore + partScore)

/-- The `MatchMapping` record from `refereeMatcher.ts` (the persisted confirmation
cache entry; `matchedAt` is the `Date.now()` timestamp). -/
structure MatchMapping where
  scheduleName : String
  employeeNumber : String
  matchedAt : Nat
  dateProcessed : String
  isManual : Bool
deriving DecidableEq, Repr

/-- Embedding of `addMapping` from `refereeMatcher.ts`: remove any existing mapping whose
normalized schedule name matches, then append the new mapping.  The stored
mapping list is passed in and the updated list returned (`getStoredMappings`
/ `saveMappings` are the `localStorage` round trip). -/
def addMapping (mapping : MatchMapping) (current : List MatchMapping) :
    List MatchMapping :=
  (current.filter (fun m =>
    decide (normalizeForComparison m.scheduleName ≠
            normalizeForComparison mapping.scheduleName))) ++ [mapping]

/-- Embedding of `storeManualMatch` from `refereeMatcher.ts` (`now` models `Date.now()`). -/
def storeManualMatch (scheduleName : String) (referee : Referee)
    (dateProcessed : String) (now : Nat) (current : List MatchMapping) :
    List MatchMapping :=
  addMapping ⟨scheduleName, referee.employeeNumber, now, dateProcessed, true⟩
    current

/-- Embedding of `storeAutoMatch` from `refereeMatcher.ts` (`now` models `Date.now()`). -/
def storeAutoMatch (scheduleName : String) (referee : Referee)
    (dateProcessed : String) (now : Nat) (current : List MatchMapping) :
    List MatchMapping :=
  addMapping ⟨scheduleName, referee.employeeNumber, now, dateProcessed, false⟩
    current

/-- One scored registry entry (`{ referee, confidence }` in `findMatch`). -/
structure ScoredMatch where
  referee : Referee
  confidence : ℚ
deriving DecidableEq, Repr

/-- Insert into a descending-sorted list, before the first element whose
confidence is not strictly greater: together with `sortByConfidenceDesc`
this realises the stable descending sort that ES2019
`Array.prototype.sort((a, b) => b.confidence - a.confidence)` performs. -/
def insertByConfidence (x : ScoredMatch) : List ScoredMatch → List ScoredMatch
  | [] => [x]
  | y :: ys =>
      if x.confidence < y.confidence then y :: insertByConfidence x ys
      else x :: y :: ys

/-- Stable descending sort by confidence (see `insertByConfidence`). -/
def sortByConfidenceDesc : List ScoredMatch → List ScoredMatch
  | [] => []
  | x :: xs => insertByConfidence x (sortByConfidenceDesc xs)

/-- The `MatchResult` record from `refereeMatcher.ts`. -/
structure MatchResult where
  scheduleName : String
  matchedReferee : Option Referee
  confidence : ℚ
  isFromStorage : Bool
  suggestions : List ScoredMatch
deriving DecidableEq, Repr

/-- The `CONFIDENCE_THRESHOLD` constant in `findMatch`. -/
def CONFIDENCE_THRESHOLD : ℚ := 60

/-- Embedding of `findMatch` from `refereeMatcher.ts`.  The stored mappings and the
current referee database are the two `localStorage` reads the function
performs; the `_dateProcessed` argument of the source is unused there and
omitted.  The nested `if (storedMatch) { if (referee) return … } }` of the
source — which falls through to fuzzy scoring when the stored mapping's
referee no longer exists — is the `Option.bind`. -/
def findMatch (storedMappings : List MatchMapping)
    (currentDatabase : List Referee) (scheduleName : String) : MatchResult :=
  if currentDatabase.length = 0 then
    ⟨scheduleName, none, 0, false, []⟩
  else
    let storedMatch := storedMappings.find? (fun m =>
      decide (normalizeForComparison m.scheduleName =
              normalizeForComparison scheduleName))
    let storedReferee := storedMatch.bind (fun sm =>
      currentDatabase.find? (fun r =>
        decide (r.employeeNumber = sm.employeeNumber)))
    match storedReferee with
    | some referee => ⟨scheduleName, some referee, 100, true, []⟩
    | none =>
      let matchList := sortByConfidenceDesc (currentDatabase.map (fun referee =>
        ⟨referee, calculateSimilarity scheduleName referee.fullName⟩))
      match matchList.head? with
      | some bestMatch =>
          let isConfident := CONFIDENCE_THRESHOLD ≤ bestMatch.confidence
          ⟨scheduleName, some bestMatch.referee, bestMatch.confidence, false,
            if isConfident then
              (matchList.take 5).filter (fun m => (30 : ℚ) ≤ m.confidence)
            else matchList.take 8⟩
      | none => ⟨scheduleName, none, 0, false, []⟩

/-- The `DEFAULT_REFEREE_DATABASE` constant from `refereeMatcher.ts` (the embedded
fallback registry). -/
def DEFAULT_REFEREE_DATABASE : List Referee := [
  ⟨"346", "PAMELA L PEREZ MENDEZ"⟩,
  ⟨"442", "JOEL F MADERA"⟩,
  ⟨"1421", "JOEL SANCHEZ"⟩,
  ⟨"1865", "JUAN M MELENDEZ"⟩,
  ⟨"2073", "LUIS JAVIER FIGUEROA"⟩,
  ⟨"2410", "ISMAEL BENITEZ"⟩,
  ⟨"2594", "CARMELO DE LA ROSA"⟩,
  ⟨"2788", "WILLREY CARMONA SANTIAGO"⟩,
  ⟨"2906", "TURIANO MALDONADO"⟩,
  ⟨"2953", "JOSE R RIVERA BENITEZ"⟩,
  ⟨"3610", "GABRIEL R RODRIGUEZ"⟩,
  ⟨"3804", "HECTOR M LANDRAU"⟩,
  ⟨"4169", "LUIS A MELENDEZ"⟩,
  ⟨"5192", "RAFAEL QUIÑONES"⟩,
  ⟨"5234", "HECTOR R LOPEZ"⟩,
  ⟨"5379", "LUIS JOEL CURBELO MELENDEZ"⟩,
  ⟨"5486", "ANDRES ORTIZ"⟩,
  ⟨"6222", "HUGO MANUEL TEJEDA-DE LA ROSA"⟩,
  ⟨"6476", "VILMARIE MORALES"⟩,
  ⟨"6833", "RAMON E FALU"⟩,
  ⟨"9230", "SAMUEL NIEVES"⟩,
  ⟨"9475", "AXEL COLL"⟩,
  ⟨"9791", "JONATHAN A HERNANDEZ"⟩,
  ⟨"O602", "CESAR O. QUIÑOENES"⟩,
  ⟨"5025", "EDWIN X MILLET"⟩,
  ⟨"4073", "GLORYVEE PEREZ"⟩,
  ⟨"4697", "LUIS GOMEZ"⟩,
  ⟨"3008", "JOSE QUIÑONES"⟩,
  ⟨"2325", "CARLOS A. CARRERO"⟩,
  ⟨"2455", "JOHNNY BATISTA"⟩,
  ⟨"8347", "EDWIN PIZARRO"⟩,
  ⟨"4006", "WILLIAM FIGUEROA"⟩,
  ⟨"3474", "JOEL A. CRUZ"⟩,
  ⟨"3792", "ANGEL M. RIVERA"⟩,
  ⟨"O629", "AMANDA PEREZ"⟩,
  ⟨"2845", "ALEXIS MERCADO"⟩,
  ⟨"7669", "CARMEN SANTIAGO"⟩,
  ⟨"9800", "ZERIMAR MERCADO"⟩,
  ⟨"9801", "PEPE MILAN"⟩,
  ⟨"9802", "ROBERTO RAMIREZ"⟩]

/-- The value the `localStorage` key `referee_database_v1` holds, as
`getRefereeDatabase` sees it: `none` = key absent; `some none` = present but
`JSON.parse` throws or yields a non-array (`Array.isArray` fails); `some
(some l)` = parses to the array `l`. -/
abbrev StoredRegistry := Option (Option (List Referee))

/-- Embedding of `getRefereeDatabase` from `refereeMatcher.ts`: return the stored array
when it is present, parses, and is non-empty; otherwise fall back to
`DEFAULT_REFEREE_DATABASE`. -/
def getRefereeDatabase (stored : StoredRegistry) : List Referee :=
  match stored with
  | some (some parsed) =>
      if parsed.length > 0 then parsed else DEFAULT_REFEREE_DATABASE
  | _ => DEFAULT_REFEREE_DATABASE

/-- Insertion step of the by-name sort the registry mutations perform
(`.sort((a, b) => a.fullName.localeCompare(b.fullName))`; `localeCompare`
is modelled as code-point comparison, and ES2019 sort is stable). -/
def insertByName (x : Referee) : List Referee → List Referee
  | [] => [x]
  | y :: ys =>
      if y.fullName < x.fullName then y :: insertByName x ys
      else x :: y :: ys

/-- Stable ascending sort by `fullName` (see `insertByName`). -/
def sortByName : List Referee → List Referee
  | [] => []
  | x :: xs => insertByName x (sortByName xs)

/-- Embedding of `addRefereeToDatabase` from `refereeMatcher.ts`.  The current registry
is passed in; `.ok` carries the list handed to `saveRefereeDatabase`, and
`.error` models the thrown `Error` (in which case nothing is saved). -/
def addRefereeToDatabase (referee : Referee) (current : List Referee) :
    Except String (List Referee) :=
  if current.any (fun r => decide (r.employeeNumber = referee.employeeNumber))
  then .error ("Referee with ID " ++ referee.employeeNumber ++
               " already exists.")
  else .ok (sortByName (current ++ [referee]))

/-- Embedding of `updateRefereeInDatabase` from `refereeMatcher.ts`. -/
def updateRefereeInDatabase (oldEmployeeNumber : String)
    (updatedReferee : Referee) (current : List Referee) :
    Except String (List Referee) :=
  match current.findIdx? (fun r =>
      decide (r.employeeNumber = oldEmployeeNumber)) with
  | none => .error ("Referee with ID " ++ oldEmployeeNumber ++ " not found.")
  | some index =>
      if oldEmployeeNumber ≠ updatedReferee.employeeNumber ∧
         current.any (fun r =>
           decide (r.employeeNumber = updatedReferee.employeeNumber)) then
        .error ("Referee with ID " ++ updatedReferee.employeeNumber ++
                " already exists.")
      else .ok (sortByName (current.set index updatedReferee))

/-- Embedding of `deleteRefereeFromDatabase` from `refereeMatcher.ts`: a plain filter —
the source has no error path, it always saves the filtered list. -/
def deleteRefereeFromDatabase (employeeNumber : String)
    (current : List Referee) : List Referee :=
  current.filter (fun r => decide (r.employeeNumber ≠ employeeNumber))

/-- The registry that is actually stored after running a fallible mutation:
`saveRefereeDatabase` is reached only on the non-throwing path, so on
`.error` the stored registry is left as it was. -/
def registryAfter (current : List Referee)
    (result : Except String (List Referee)) : List Referee :=
  match result with
  | .ok updated => updated
  | .error _ => current

/-! ## Payroll (`src/utils/category.ts`) -/

/-- The `ADMIN_FEE_PER_GAME` constant from `category.ts`. -/
def ADMIN_FEE_PER_GAME : ℚ := 2

/-- The `RefereePayrollSettings` record from `category.ts`. -/
structure RefereePayrollSettings where
  employeeNumber : String
  hasFixedRate : Bool
  fixedRate : ℚ
  hasAdminFee : Bool
deriving DecidableEq, Repr

/-- The `GlobalPayrollSettings` record from `category.ts`. -/
structure GlobalPayrollSettings where
  haciendaTaxRate : ℚ
  depositFee : ℚ
  adminFeeAmount : ℚ
deriving DecidableEq, Repr

/-- The `PayrollCalculationInput` record from `category.ts`.  `categories` and `rates`
are the `Record<string, number>` objects as association lists (a `Record`'s
keys are distinct; `rates[cat] || 0` is the lookup with default `0`). -/
structure PayrollCalculationInput where
  employeeNumber : String
  refereeName : String
  scheduleName : String
  categories : List (String × ℚ)
  rates : List (String × ℚ)
  extraPay : ℚ
  fines : ℚ
  globalSettings : GlobalPayrollSettings
  refereeSettings : RefereePayrollSettings
  lifetimeEarningsBefore : ℚ
deriving DecidableEq, Repr

/-- The `PayrollCalculationResult` record from `category.ts`. -/
structure PayrollCalculationResult where
  games : ℚ
  grossPay : ℚ
  extraPay : ℚ
  fines : ℚ
  totalEarnings : ℚ
  adminFee : ℚ
  taxableIncome : ℚ
  haciendaTax : ℚ
  depositFee : ℚ
  netPay : ℚ
  usedFixedRate : Bool
  fixedRate : Option ℚ
deriving DecidableEq, Repr

/-- The lookup `rates[cat] || 0` of `category.ts`. -/
def rateFor (rates : List (String × ℚ)) (cat : String) : ℚ :=
  match rates.find? (fun p => decide (p.1 = cat)) with
  | some p => p.2
  | none => 0

/-- Embedding of `calculateRefereePayroll` from `category.ts`. -/
def calculateRefereePayroll (input : PayrollCalculationInput) :
    PayrollCalculationResult :=
  let games := (input.categories.map (fun p => p.2)).foldl (· + ·) 0
  let grossPay :=
    if input.refereeSettings.hasFixedRate ∧
       input.refereeSettings.fixedRate > 0 then
      games * input.refereeSettings.fixedRate
    else
      (input.categories.map (fun p => p.2 * rateFor input.rates p.1)).foldl
        (· + ·) 0
  let totalEarnings := grossPay + input.extraPay
  let adminFee :=
    if input.refereeSettings.hasAdminFee then games * ADMIN_FEE_PER_GAME
    else 0
  let baseForTax := totalEarnings
  let remainingDeductible := mathMax 0 (500 - input.lifetimeEarningsBefore)
  let taxableAmount := mathMax 0 (baseForTax - remainingDeductible)
  let haciendaTax :=
    if taxableAmount > 0 then
      taxableAmount * input.globalSettings.haciendaTaxRate
    else 0
  let depositFee := input.globalSettings.depositFee
  let netPay := totalEarnings - adminFee - haciendaTax - depositFee -
    input.fines
  { games := games
    grossPay := grossPay
    extraPay := input.extraPay
    fines := input.fines
    totalEarnings := totalEarnings
    adminFee := adminFee
    taxableIncome := taxableAmount
    haciendaTax := haciendaTax
    depositFee := depositFee
    netPay := netPay
    usedFixedRate := input.refereeSettings.hasFixedRate
    fixedRate :=
      if input.refereeSettings.hasFixedRate then
        some input.refereeSettings.fixedRate
      else none }

/-! ## Helper lemmas -/

lemma mathMax_zero_nonneg (x : ℚ) : 0 ≤ mathMax 0 x := by
  unfold mathMax
  split_ifs with h
  · exact h
  · exact le_refl 0

lemma mathMin_le_left (a b : ℚ) : mathMin a b ≤ a := by
  unfold mathMin
  split_ifs with h
  · exact le_refl a
  · exact le_of_not_le h

lemma mathMin_nonneg (a b : ℚ) (ha : 0 ≤ a) (hb : 0 ≤ b) :
    0 ≤ mathMin a b := by
  unfold mathMin
  split_ifs with h
  · exact ha
  · exact hb

lemma guarded_mul (t r : ℚ) (h : 0 ≤ t) :
    (if t > 0 then t * r else 0) = t * r := by
  split_ifs with hp
  · rfl
  · rw [le_antisymm (not_lt.mp hp) h, zero_mul]

/-! ## Concrete inputs used by the payroll claims -/

/-- The spec's boundary example: 450 of lifetime earnings already consumed,
100 of total earnings in this batch, a 10% tax rate. -/
def exemptionBoundaryInput : PayrollCalculationInput :=
  { employeeNumber := "1421", refereeName := "JOEL SANCHEZ",
    scheduleName := "Sanchez",
    categories := [("4u", 10)], rates := [("4u", 10)],
    extraPay := 0, fines := 0,
    globalSettings := ⟨1/10, 1, 2⟩,
    refereeSettings := ⟨"1421", false, 0, true⟩,
    lifetimeEarningsBefore := 450 }

/-- Like `exemptionBoundaryInput` but with fines exceeding the earnings, so
the deductions sum past the total earnings. -/
def overDeductedInput : PayrollCalculationInput :=
  { exemptionBoundaryInput with fines := 200 }

/-- Fixed-rate example: 5 games across two categories, fixed rate 10. -/
def fixedRateInput : PayrollCalculationInput :=
  { employeeNumber := "346", refereeName := "PAMELA L PEREZ MENDEZ",
    scheduleName := "Perez",
    categories := [("4u", 2), ("5uF", 3)], rates := [("4u", 100)],
    extraPay := 0, fines := 0,
    globalSettings := ⟨1/10, 1, 2⟩,
    refereeSettings := ⟨"346", true, 10, false⟩,
    lifetimeEarningsBefore := 0 }

/-! ## Claim theorems -/

/-- Claim C1: for every payroll input with nonnegative lifetime earnings,
`calculateRefereePayroll` computes `totalEarnings = grossPay + extraPay`,
`taxableIncome = max 0 (totalEarnings − max 0 (500 −
lifetimeEarningsBefore))` and `haciendaTax = taxableIncome · haciendaTaxRate`;
at the boundary instance (450 lifetime, 100 earnings, 10% rate) the taxable
amount is 50 and the tax is 5. -/
theorem calculateRefereePayroll_exemption (input : PayrollCalculationInput)
    (hL : 0 ≤ input.lifetimeEarningsBefore) :
    ((calculateRefereePayroll input).totalEarnings
      = (calculateRefereePayroll input).grossPay + input.extraPay) ∧
    ((calculateRefereePayroll input).taxableIncome
      = mathMax 0 ((calculateRefereePayroll input).totalEarnings
          - mathMax 0 (500 - input.lifetimeEarningsBefore))) ∧
    ((calculateRefereePayroll input).haciendaTax
      = (calculateRefereePayroll input).taxableIncome
          * input.globalSettings.haciendaTaxRate) ∧
    ((calculateRefereePayroll exemptionBoundaryInput).taxableIncome = 50 ∧
     (calculateRefereePayroll exemptionBoundaryInput).haciendaTax = 5) := by
  refine ⟨?_, ?_, ?_, by decide⟩
  · simp [calculateRefereePayroll]
  · simp [calculateRefereePayroll]
  · simp only [calculateRefereePayroll]
    exact guarded_mul _ _ (mathMax_zero_nonneg _)

/-- Witness for C1 at the exemption-boundary input. -/
theorem calculateRefereePayroll_exemption_witness :
    (calculateRefereePayroll exemptionBoundaryInput).haciendaTax
      = (calculateRefereePayroll exemptionBoundaryInput).taxableIncome
          * exemptionBoundaryInput.globalSettings.haciendaTaxRate :=
  (calculateRefereePayroll_exemption exemptionBoundaryInput (by decide)).2.2.1

/-- Claim C2: `netPay` is exactly `totalEarnings − adminFee − haciendaTax −
depositFee − fines`, with no clamping; whenever the deductions exceed the
total earnings the net pay is negative (and the function is total — there is
no error path). -/
theorem calculateRefereePayroll_netPay (input : PayrollCalculationInput) :
    ((calculateRefereePayroll input).netPay
      = (calculateRefereePayroll input).totalEarnings
        - (calculateRefereePayroll input).adminFee
        - (calculateRefereePayroll input).haciendaTax
        - (calculateRefereePayroll input).depositFee
        - (calculateRefereePayroll input).fines) ∧
    ((calculateRefereePayroll input).totalEarnings
        < (calculateRefereePayroll input).adminFee
          + (calculateRefereePayroll input).haciendaTax
          + (calculateRefereePayroll input).depositFee
          + (calculateRefereePayroll input).fines
      → (calculateRefereePayroll input).netPay < 0) := by
  have heq : (calculateRefereePayroll input).netPay
      = (calculateRefereePayroll input).totalEarnings
        - (calculateRefereePayroll input).adminFee
        - (calculateRefereePayroll input).haciendaTax
        - (calculateRefereePayroll input).depositFee
        - (calculateRefereePayroll input).fines := by
    simp [calculateRefereePayroll]
  exact ⟨heq, fun h => by rw [heq]; linarith⟩

/-- Witness for C2: with 200 of fines against 100 of earnings the net pay
comes out negative. -/
theorem calculateRefereePayroll_netPay_witness :
    (calculateRefereePayroll overDeductedInput).netPay < 0 :=
  (calculateRefereePayroll_netPay overDeductedInput).2 (by decide)

/-- Claim C3: with `hasFixedRate` and a positive `fixedRate` the gross pay
is the game total times the fixed rate, regardless of the category rate
table (5 games at fixed rate 10 give 50 for every rate table); otherwise it
is the sum over categories of `count · rate`, a category missing from the
rate table contributing 0 (`rateFor` returns 0 there). -/
theorem calculateRefereePayroll_grossPay (input : PayrollCalculationInput) :
    (input.refereeSettings.hasFixedRate = true
      → input.refereeSettings.fixedRate > 0
      → (calculateRefereePayroll input).grossPay
          = (calculateRefereePayroll input).games
            * input.refereeSettings.fixedRate) ∧
    (¬(input.refereeSettings.hasFixedRate = true
        ∧ input.refereeSettings.fixedRate > 0)
      → (calculateRefereePayroll input).grossPay
          = (input.categories.map
              (fun p => p.2 * rateFor input.rates p.1)).sum) ∧
    (∀ anyRates : List (String × ℚ),
      (calculateRefereePayroll
        { fixedRateInput with rates := anyRates }).grossPay = 50) := by
  refine ⟨?_, ?_, ?_⟩
  · intro h1 h2
    simp [calculateRefereePayroll, h1, h2]
  · intro h
    simp only [calculateRefereePayroll]
    rw [if_neg h, List.sum_eq_foldl]
  · intro anyRates
    have hfix : ({ fixedRateInput with rates := anyRates }
        : PayrollCalculationInput).refereeSettings.hasFixedRate = true := rfl
    have hpos : ({ fixedRateInput with rates := anyRates }
        : PayrollCalculationInput).refereeSettings.fixedRate = 10 := rfl
    simp only [calculateRefereePayroll, hfix, hpos]
    norm_num [fixedRateInput]

/-- Witness for C3 at the fixed-rate input. -/
theorem calculateRefereePayroll_grossPay_witness :
    (calculateRefereePayroll fixedRateInput).grossPay
      = (calculateRefereePayroll fixedRateInput).games
        * fixedRateInput.refereeSettings.fixedRate :=
  (calculateRefereePayroll_grossPay fixedRateInput).1 (by decide) (by decide)

/-! ## Registry mutation claims -/

/-- Claim C8 (amended): an update referencing a nonexistent
`employeeNumber` fails with the NotFound error, but a delete referencing a
nonexistent `employeeNumber` completes silently, leaving the registry
unchanged — `deleteRefereeFromDatabase` is a plain filter with no error
path. -/
theorem update_delete_missing (current : List Referee) (emp : String)
    (upd : Referee) (h : ∀ x ∈ current, x.employeeNumber ≠ emp) :
    updateRefereeInDatabase emp upd current
      = .error ("Referee with ID " ++ emp ++ " not found.") ∧
    deleteRefereeFromDatabase emp current = current := by
  constructor
  · unfold updateRefereeInDatabase
    have hidx : current.findIdx? (fun r => decide (r.employeeNumber = emp))
        = none :=
      List.findIdx?_eq_none_iff.mpr (fun x hx => by simp [h x hx])
    rw [hidx]
  · exact List.filter_eq_self.mpr (fun a ha => by simp [h a ha])

/-- Witness for the amended C8 on a one-entry registry. -/
theorem update_delete_missing_witness :
    updateRefereeInDatabase "999" ⟨"123", "X Y"⟩ [⟨"001", "JOHN SMITH"⟩]
      = .error ("Referee with ID " ++ "999" ++ " not found.") ∧
    deleteRefereeFromDatabase "999" [⟨"001", "JOHN SMITH"⟩]
      = [⟨"001", "JOHN SMITH"⟩] :=
  update_delete_missing [⟨"001", "JOHN SMITH"⟩] "999" ⟨"123", "X Y"⟩
    (by decide)

/-- Counterexample to C8 as stated: deleting the absent `employeeNumber`
`"999"` completes normally and stores the unchanged registry — the source's
`deleteRefereeFromDatabase` is `filter` + `save` and cannot throw, so the
delete half of the claim ("fails with NotFound") is false. -/
theorem delete_missing_completes :
    deleteRefereeFromDatabase "999" [⟨"001", "JOHN SMITH"⟩]
      = [⟨"001", "JOHN SMITH"⟩] := by decide

/-- Claim C9: adding a referee whose `employeeNumber` already exists, or
updating a referee to an `employeeNumber` already used by a different
record, fails with the duplicate-key error, and the stored registry is
unchanged (`registryAfter` keeps the old registry on the error path — the
source only reaches `saveRefereeDatabase` after the duplicate check). -/
theorem duplicate_mutation_atomic (current : List Referee) (referee : Referee)
    (old : String) (upd : Referee) :
    ((∃ x ∈ current, x.employeeNumber = referee.employeeNumber) →
      ∃ e, addRefereeToDatabase referee current = .error e ∧
        registryAfter current (addRefereeToDatabase referee current)
          = current) ∧
    ((∃ x ∈ current, x.employeeNumber = old) →
      old ≠ upd.employeeNumber →
      (∃ x ∈ current, x.employeeNumber = upd.employeeNumber) →
      ∃ e, updateRefereeInDatabase old upd current = .error e ∧
        registryAfter current (updateRefereeInDatabase old upd current)
          = current) := by
  constructor
  · rintro ⟨x, hx, hex⟩
    have hany : current.any
        (fun r => decide (r.employeeNumber = referee.employeeNumber))
        = true := List.any_eq_true.mpr ⟨x, hx, by simp [hex]⟩
    exact ⟨"Referee with ID " ++ referee.employeeNumber ++
        " already exists.",
      by simp [addRefereeToDatabase, hany],
      by simp [registryAfter, addRefereeToDatabase, hany]⟩
  · rintro ⟨x, hx, hex⟩ hne ⟨y, hy, hey⟩
    have hidx : (current.findIdx?
        (fun r => decide (r.employeeNumber = old))).isSome := by
      rw [List.findIdx?_isSome]
      exact List.any_eq_true.mpr ⟨x, hx, by simp [hex]⟩
    obtain ⟨i, hi⟩ := Option.isSome_iff_exists.mp hidx
    have hany2 : current.any
        (fun r => decide (r.employeeNumber = upd.employeeNumber))
        = true := List.any_eq_true.mpr ⟨y, hy, by simp [hey]⟩
    exact ⟨"Referee with ID " ++ upd.employeeNumber ++ " already exists.",
      by simp [updateRefereeInDatabase, hi, hne, hany2],
      by simp [registryAfter, updateRefereeInDatabase, hi, hne, hany2]⟩

/-- Witness for C9: duplicate add and duplicate-target update on a
two-entry registry both error and leave the registry as it was. -/
theorem duplicate_mutation_atomic_witness :
    (∃ e, addRefereeToDatabase ⟨"001", "CARL R"⟩ [⟨"001", "ANA P"⟩,
        ⟨"002", "BO M"⟩] = .error e ∧
      registryAfter [⟨"001", "ANA P"⟩, ⟨"002", "BO M"⟩]
        (addRefereeToDatabase ⟨"001", "CARL R"⟩ [⟨"001", "ANA P"⟩,
          ⟨"002", "BO M"⟩]) = [⟨"001", "ANA P"⟩, ⟨"002", "BO M"⟩]) ∧
    (∃ e, updateRefereeInDatabase "002" ⟨"001", "DORA F"⟩ [⟨"001", "ANA P"⟩,
        ⟨"002", "BO M"⟩] = .error e ∧
      registryAfter [⟨"001", "ANA P"⟩, ⟨"002", "BO M"⟩]
        (updateRefereeInDatabase "002" ⟨"001", "DORA F"⟩ [⟨"001", "ANA P"⟩,
          ⟨"002", "BO M"⟩]) = [⟨"001", "ANA P"⟩, ⟨"002", "BO M"⟩]) :=
  ⟨(duplicate_mutation_atomic [⟨"001", "ANA P"⟩, ⟨"002", "BO M"⟩]
      ⟨"001", "CARL R"⟩ "002" ⟨"001", "DORA F"⟩).1 (by decide),
   (duplicate_mutation_atomic [⟨"001", "ANA P"⟩, ⟨"002", "BO M"⟩]
      ⟨"001", "CARL R"⟩ "002" ⟨"001", "DORA F"⟩).2 (by decide) (by decide)
      (by decide)⟩

/-! ## Default-database claims -/

lemma length_insertByConfidence (x : ScoredMatch) (s : List ScoredMatch) :
    (insertByConfidence x s).length = s.length + 1 := by
  induction s with
  | nil => rfl
  | cons y ys ih =>
      simp only [insertByConfidence]
      split_ifs
      · simp [ih]
      · simp

lemma length_sortByConfidenceDesc (l : List ScoredMatch) :
    (sortByConfidenceDesc l).length = l.length := by
  induction l with
  | nil => rfl
  | cons x xs ih =>
      simp only [sortByConfidenceDesc]
      rw [length_insertByConfidence, ih, List.length_cons]

/-- With a non-empty registry `findMatch` never returns a null referee. -/
lemma findMatch_matchedReferee_ne_none (ms : List MatchMapping)
    (db : List Referee) (name : String) (hdb : db ≠ []) :
    (findMatch ms db name).matchedReferee ≠ none := by
  have h0 : ¬ db.length = 0 := fun h => hdb (List.length_eq_zero.mp h)
  simp only [findMatch, if_neg h0]
  cases hsr : (ms.find? (fun m =>
      decide (normalizeForComparison m.scheduleName
        = normalizeForComparison name))).bind (fun sm =>
      db.find? (fun r => decide (r.employeeNumber = sm.employeeNumber))) with
  | some referee => simp [hsr]
  | none =>
      simp only [hsr]
      cases hh : (sortByConfidenceDesc (db.map (fun referee =>
          ⟨referee, calculateSimilarity name referee.fullName⟩))).head? with
      | some b => simp [hh]
      | none =>
          rw [List.head?_eq_none_iff] at hh
          have := length_sortByConfidenceDesc (db.map (fun referee =>
            ⟨referee, calculateSimilarity name referee.fullName⟩))
          rw [hh, List.length_map] at this
          exact absurd this.symm (by simpa using h0)

/-- Claim C10: `getRefereeDatabase` never yields an empty registry — an
absent, unparsable, or empty stored value falls back to the 40-entry
default — so `findMatch` through this loader never takes its empty-registry
branch, and after every referee is deleted (stored value `[]`) the next
read resurrects the default database. -/
theorem getRefereeDatabase_never_empty (stored : StoredRegistry)
    (ms : List MatchMapping) (name : String) :
    getRefereeDatabase stored ≠ [] ∧
    (findMatch ms (getRefereeDatabase stored) name).matchedReferee ≠ none ∧
    getRefereeDatabase (some (some [])) = DEFAULT_REFEREE_DATABASE ∧
    DEFAULT_REFEREE_DATABASE.length = 40 := by
  have hdef : DEFAULT_REFEREE_DATABASE ≠ [] := by decide
  have hne : getRefereeDatabase stored ≠ [] := by
    unfold getRefereeDatabase
    rcases stored with _ | _ | parsed
    · exact hdef
    · exact hdef
    · dsimp only
      split_ifs with h
      · exact fun he => by simp [he] at h
      · exact hdef
  exact ⟨hne, findMatch_matchedReferee_ne_none ms _ name hne, rfl, rfl⟩

/-! ## Similarity-scorer claims -/

/-- Claim C6 (amended): `calculateSimilarity` always returns a rational
score in `[0, 100]` (the score is not always an integer — see the
counterexample). -/
theorem calculateSimilarity_range (a b : String) :
    0 ≤ calculateSimilarity a b ∧ calculateSimilarity a b ≤ 100 := by
  have hmin : ∀ x : ℚ, 0 ≤ x → 0 ≤ mathMin 100 x ∧ mathMin 100 x ≤ 100 :=
    fun x hx => ⟨mathMin_nonneg _ _ (by norm_num) hx, mathMin_le_left _ _⟩
  simp only [calculateSimilarity]
  split_ifs with h1 h2 h3
  · norm_num
  · norm_num
  · norm_num
  · cases hsp : (getNameParts a).head? with
    | none => exact hmin _ (by positivity)
    | some firstSchedWord =>
        cases hrp : (getNameParts b).head? with
        | none => exact hmin _ (by positivity)
        | some firstRefWord =>
            dsimp only
            split_ifs with h4 h5
            · exact hmin _ (by positivity)
            · exact hmin _ (by positivity)
            · exact hmin _ (by positivity)

/-- Counterexample to C6 as stated: on the pair
`("aaa zzz", "aaa yyy qqq")` — token match 1 of 3, first tokens equal —
the score is `80/3 + 20 = 140/3`, which is not an integer. -/
theorem calculateSimilarity_not_integer :
    ¬ ∃ n : ℤ, calculateSimilarity "aaa zzz" "aaa yyy qqq" = (n : ℚ) := by
  rintro ⟨n, hn⟩
  have hd : (calculateSimilarity "aaa zzz" "aaa yyy qqq").den = 3 := by
    decide
  rw [hn, Rat.den_intCast] at hd
  exact absurd hd (by norm_num)

/-- The disjunction of the three relations the inner token loop of
`calculateSimilarity` tests, in source order: identical, substring
containment either way, or edit-similarity above `0.8` with both lengths
above 2. -/
def tokenRel (sp rp : List Char) : Bool :=
  decide (sp = rp) || (includesChars sp rp || includesChars rp sp) ||
    (sp.length > 2 && rp.length > 2 &&
      decide (levenshteinSimilarity sp rp > 8/10))

/-- Claim C7 (amended): for each schedule token the registry tokens are
scanned in registry order, and the first one related to it (by equality,
containment, or edit-similarity, tested in that order per token) decides
the credit: a full match if that first related token is identical, a
partial match otherwise, and no credit when no registry token is related.
(The claim as stated — full credit whenever an identical token exists
anywhere — fails; see the counterexample.) -/
theorem tokenMatchKind_first_related (sp : List Char)
    (refParts : List (List Char)) :
    tokenMatchKind sp refParts =
      match refParts.find? (fun rp => tokenRel sp rp) with
      | none => TokenMatchKind.nomatch
      | some rp => if sp = rp then .full else .near := by
  induction refParts with
  | nil => rfl
  | cons rp rest ih =>
      by_cases h1 : sp = rp
      · have hr : tokenRel sp rp = true := by simp [tokenRel, h1]
        rw [List.find?_cons_of_pos _ hr]
        simp [tokenMatchKind, h1]
      · cases hA : (includesChars sp rp || includesChars rp sp) with
        | true =>
            have hr : tokenRel sp rp = true := by simp [tokenRel, hA]
            rw [List.find?_cons_of_pos _ hr]
            simp [tokenMatchKind, h1, hA]
        | false =>
            cases hB : (decide (sp.length > 2) && decide (rp.length > 2) &&
                decide (levenshteinSimilarity sp rp > 8/10)) with
            | true =>
                have hr : tokenRel sp rp = true := by simp [tokenRel, hB]
                rw [List.find?_cons_of_pos _ hr]
                simp [tokenMatchKind, h1, hA, hB]
            | false =>
                have hr : tokenRel sp rp = false := by
                  simp only [tokenRel, hA, hB, h1]
                  simp
                rw [List.find?_cons_of_neg _ (by simp [hr])]
                have hL : tokenMatchKind sp (rp :: rest)
                    = tokenMatchKind sp rest := by
                  simp [tokenMatchKind, h1, hA, hB]
                rw [hL, ih]

/-- Counterexample to C7 as stated: for the schedule token `"ab"` against
the registry tokens `["abc", "ab"]` an identical registry token exists, yet
only a partial match is credited, because the scan hits `"abc"` (a
containment) first; through the full pipeline, `"ab xx"` against
`"abc ab"` yields zero full matches. -/
theorem tokenMatchKind_counterexample :
    ("ab".toList ∈ ["abc".toList, "ab".toList] ∧
     tokenMatchKind "ab".toList ["abc".toList, "ab".toList]
       = TokenMatchKind.near) ∧
    ("ab".toList ∈ getNameParts "abc ab" ∧
     (tokenMatchCounts (getNameParts "ab xx") (getNameParts "abc ab")).1
       = 0) := by decide

/-! ## Match-resolver claims -/

lemma head?_insertByConfidence (x : ScoredMatch) (s : List ScoredMatch) :
    (insertByConfidence x s).head? = some (match s with
      | [] => x
      | y :: _ => if x.confidence < y.confidence then y else x) := by
  cases s with
  | nil => rfl
  | cons y ys =>
      simp only [insertByConfidence]
      split_ifs with h <;> rfl

/-- The head of the stable descending sort is the first entry of the input
that attains the maximal confidence. -/
lemma sortByConfidenceDesc_head_firstMax (l : List ScoredMatch)
    (hl : l ≠ []) :
    ∃ r, (sortByConfidenceDesc l).head? = some r ∧ r ∈ l ∧
      (∀ x ∈ l, x.confidence ≤ r.confidence) ∧
      l.find? (fun x => decide (x.confidence = r.confidence)) = some r := by
  induction l with
  | nil => exact absurd rfl hl
  | cons a t ih =>
      cases t with
      | nil =>
          refine ⟨a, rfl, List.mem_singleton_self a, ?_, ?_⟩
          · intro x hx
            rw [List.mem_singleton.mp hx]
          · exact List.find?_cons_of_pos _ (by simp)
      | cons b t2 =>
          obtain ⟨r, hhead, hmem, hmax, hfind⟩ := ih (by simp)
          obtain ⟨s2, hs⟩ : ∃ s2, sortByConfidenceDesc (b :: t2) = r :: s2 := by
            cases hsd : sortByConfidenceDesc (b :: t2) with
            | nil => rw [hsd] at hhead; exact absurd hhead (by simp)
            | cons c cs =>
                rw [hsd, List.head?_cons] at hhead
                exact ⟨cs, by rw [Option.some_inj.mp hhead]⟩
          have hsort : sortByConfidenceDesc (a :: b :: t2)
              = insertByConfidence a (sortByConfidenceDesc (b :: t2)) := rfl
          by_cases hc : a.confidence < r.confidence
          · refine ⟨r, ?_, List.mem_cons_of_mem a hmem, ?_, ?_⟩
            · rw [hsort, hs]
              simp [insertByConfidence, hc]
            · intro x hx
              rcases List.mem_cons.mp hx with hxa | hxt
              · rw [hxa]; exact le_of_lt hc
              · exact hmax x hxt
            · rw [List.find?_cons_of_neg _ (by simp [ne_of_lt hc])]
              exact hfind
          · refine ⟨a, ?_, List.mem_cons_self a _, ?_, ?_⟩
            · rw [hsort, hs]
              simp [insertByConfidence, hc]
            · intro x hx
              rcases List.mem_cons.mp hx with hxa | hxt
              · rw [hxa]
              · exact le_trans (hmax x hxt) (not_lt.mp hc)
            · exact List.find?_cons_of_pos _ (by simp)

/-- Claim C4: with a non-empty registry and no stored mapping for the
name, `findMatch` returns the registry entry with the highest
`calculateSimilarity` score — with ties resolved in favour of the earlier
registry entry (the returned referee is the *first* entry attaining its
score, which is maximal) — with no confidence-threshold condition. -/
theorem findMatch_returns_top_scorer (scheduleName : String)
    (ms : List MatchMapping) (db : List Referee) (hdb : db ≠ [])
    (hms : ∀ m ∈ ms, normalizeForComparison m.scheduleName
      ≠ normalizeForComparison scheduleName) :
    ∃ r : Referee,
      (findMatch ms db scheduleName).matchedReferee = some r ∧ r ∈ db ∧
      (∀ x ∈ db, calculateSimilarity scheduleName x.fullName
        ≤ calculateSimilarity scheduleName r.fullName) ∧
      db.find? (fun x => decide (calculateSimilarity scheduleName x.fullName
        = calculateSimilarity scheduleName r.fullName)) = some r := by
  have h0 : ¬ db.length = 0 := fun h => hdb (List.length_eq_zero.mp h)
  have hstored : ms.find? (fun m =>
      decide (normalizeForComparison m.scheduleName
        = normalizeForComparison scheduleName)) = none :=
    List.find?_eq_none.mpr (fun m hm => by simp [hms m hm])
  have hmapne : db.map (fun referee =>
      (⟨referee, calculateSimilarity scheduleName referee.fullName⟩ :
        ScoredMatch)) ≠ [] := by
    intro h
    exact hdb (List.map_eq_nil_iff.mp h)
  obtain ⟨rs, hhead, hmem, hmax, hfind⟩ :=
    sortByConfidenceDesc_head_firstMax _ hmapne
  obtain ⟨x, hxdb, hx⟩ := List.mem_map.mp hmem
  have hconf : rs.confidence
      = calculateSimilarity scheduleName rs.referee.fullName := by
    rw [← hx]
  refine ⟨rs.referee, ?_, ?_, ?_, ?_⟩
  · simp only [findMatch, if_neg h0, hstored, Option.bind]
    rw [hhead]
  · rw [← hx]
    exact hxdb
  · intro y hy
    have hle := hmax _ (List.mem_map_of_mem _ hy)
    rw [hconf] at hle
    exact hle
  · rw [List.find?_map] at hfind
    obtain ⟨x0, hx0find, hx0⟩ := Option.map_eq_some'.mp hfind
    have hx0r : rs.referee = x0 := by rw [← hx0]
    rw [← hconf, hx0r]
    have : (fun x => decide (calculateSimilarity scheduleName x.fullName
        = rs.confidence)) = ((fun s : ScoredMatch =>
          decide (s.confidence = rs.confidence)) ∘ (fun referee =>
            (⟨referee, calculateSimilarity scheduleName referee.fullName⟩ :
              ScoredMatch))) := rfl
    rw [this]
    exact hx0find

/-- Witness for C4: a two-entry registry where both entries score 90;
the tie goes to the first. -/
theorem findMatch_returns_top_scorer_witness :
    ∃ r : Referee,
      (findMatch [] [⟨"1", "CARLOS RIVERA"⟩, ⟨"2", "JOSE RIVERA"⟩]
        "rivera").matchedReferee = some r ∧
      r ∈ [(⟨"1", "CARLOS RIVERA"⟩ : Referee), ⟨"2", "JOSE RIVERA"⟩] ∧
      (∀ x ∈ [(⟨"1", "CARLOS RIVERA"⟩ : Referee), ⟨"2", "JOSE RIVERA"⟩],
        calculateSimilarity "rivera" x.fullName
          ≤ calculateSimilarity "rivera" r.fullName) ∧
      List.find? (fun x => decide (calculateSimilarity "rivera" x.fullName
          = calculateSimilarity "rivera" r.fullName))
        [(⟨"1", "CARLOS RIVERA"⟩ : Referee), ⟨"2", "JOSE RIVERA"⟩]
        = some r :=
  findMatch_returns_top_scorer "rivera" []
    [⟨"1", "CARLOS RIVERA"⟩, ⟨"2", "JOSE RIVERA"⟩] (by decide) (by simp)

/-- Filtering by a predicate that every `p`-satisfying element also
satisfies does not change the first `p`-hit. -/
lemma find?_filter_of_imp {α : Type} {p q : α → Bool} (l : List α)
    (h : ∀ m, p m = true → q m = true) :
    (l.filter q).find? p = l.find? p := by
  induction l with
  | nil => rfl
  | cons a t ih =>
      cases hpa : p a with
      | true =>
          rw [List.filter_cons_of_pos (h a hpa),
            List.find?_cons_of_pos _ hpa, List.find?_cons_of_pos _ hpa]
      | false =>
          cases hqa : q a with
          | true =>
              rw [List.filter_cons_of_pos hqa,
                List.find?_cons_of_neg _ (by simp [hpa]),
                List.find?_cons_of_neg _ (by simp [hpa])]
              exact ih
          | false =>
              rw [List.filter_cons_of_neg (by simp [hqa]),
                List.find?_cons_of_neg _ (by simp [hpa])]
              exact ih

/-- After `addMapping M`, the stored-mapping lookup for any name with the
same normalized form finds exactly `M`. -/
lemma find?_addMapping_self (M : MatchMapping) (ms : List MatchMapping)
    (target : String)
    (h : normalizeForComparison target = normalizeForComparison
      M.scheduleName) :
    (addMapping M ms).find? (fun m =>
      decide (normalizeForComparison m.scheduleName
        = normalizeForComparison target)) = some M := by
  unfold addMapping
  rw [List.find?_append]
  have hnone : (ms.filter (fun m =>
      decide (normalizeForComparison m.scheduleName
        ≠ normalizeForComparison M.scheduleName))).find? (fun m =>
      decide (normalizeForComparison m.scheduleName
        = normalizeForComparison target)) = none := by
    rw [List.find?_eq_none]
    intro x hx
    have hx2 := List.of_mem_filter hx
    simp only [decide_eq_true_eq] at hx2 ⊢
    rw [h]
    exact hx2
  rw [hnone, Option.none_or]
  exact List.find?_cons_of_pos _ (by simp [h.symm])

/-- Applying `addMapping` for a name with a different normalized form does not
change the stored-mapping lookup. -/
lemma find?_addMapping_other (M2 : MatchMapping) (ms : List MatchMapping)
    (target : String)
    (h : normalizeForComparison M2.scheduleName
      ≠ normalizeForComparison target) :
    (addMapping M2 ms).find? (fun m =>
      decide (normalizeForComparison m.scheduleName
        = normalizeForComparison target))
    = ms.find? (fun m =>
      decide (normalizeForComparison m.scheduleName
        = normalizeForComparison target)) := by
  unfold addMapping
  rw [List.find?_append, find?_filter_of_imp]
  · have hM2 : ([M2].find? (fun m =>
        decide (normalizeForComparison m.scheduleName
          = normalizeForComparison target))) = none := by
      rw [List.find?_eq_none]
      intro x hx
      rw [List.mem_singleton.mp hx]
      simp [h]
    rw [hM2, Option.or_none]
  · intro m hm
    simp only [decide_eq_true_eq] at hm ⊢
    rw [hm]
    exact fun he => h he.symm

/-- Lookup after a whole sequence of later confirmations for other
normalized names is the lookup in the base state. -/
lemma find?_foldl_addMapping (later : List MatchMapping) :
    ∀ (base : List MatchMapping) (target : String),
      (∀ m ∈ later, normalizeForComparison m.scheduleName
        ≠ normalizeForComparison target) →
      ((later.foldl (fun s m => addMapping m s) base).find? (fun m =>
          decide (normalizeForComparison m.scheduleName
            = normalizeForComparison target)))
        = base.find? (fun m =>
            decide (normalizeForComparison m.scheduleName
              = normalizeForComparison target)) := by
  induction later with
  | nil => intro base target h; rfl
  | cons m rest ih =>
      intro base target h
      rw [List.foldl_cons,
        ih (addMapping m base) target
          (fun m2 hm2 => h m2 (List.mem_cons_of_mem _ hm2)),
        find?_addMapping_other m base target (h m (List.mem_cons_self _ _))]

/-- Claim C5: once a mapping `M` for a normalized name is confirmed via
`addMapping` (the common path of `storeManualMatch` and `storeAutoMatch`),
every later `findMatch` on any name with the same normalized form returns
the referee that `M` points to, with confidence 100, `isFromStorage`, and
no suggestions — and this persists through any sequence of later
confirmations for other normalized names (precondition: the referee still
exists in the registry, expressed as the registry lookup by the confirmed
employee number finding `r`). -/
theorem findMatch_after_confirmation (ms : List MatchMapping)
    (db : List Referee) (M : MatchMapping) (r : Referee)
    (later : List MatchMapping) (n2 : String)
    (hnorm : normalizeForComparison n2
      = normalizeForComparison M.scheduleName)
    (hr : db.find? (fun x =>
      decide (x.employeeNumber = M.employeeNumber)) = some r)
    (hlater : ∀ m ∈ later, normalizeForComparison m.scheduleName
      ≠ normalizeForComparison M.scheduleName) :
    findMatch (later.foldl (fun s m => addMapping m s) (addMapping M ms))
      db n2 = ⟨n2, some r, 100, true, []⟩ := by
  have hrdb : r ∈ db := List.mem_of_find?_eq_some hr
  have hdb : ¬ db.length = 0 := by
    intro h
    rw [List.length_eq_zero.mp h] at hrdb
    exact absurd hrdb (List.not_mem_nil r)
  have hfound : (later.foldl (fun s m => addMapping m s)
      (addMapping M ms)).find? (fun m =>
        decide (normalizeForComparison m.scheduleName
          = normalizeForComparison n2)) = some M := by
    rw [find?_foldl_addMapping later (addMapping M ms) n2
      (fun m hm => by rw [hnorm]; exact hlater m hm)]
    exact find?_addMapping_self M ms n2 hnorm
  simp only [findMatch, if_neg hdb, hfound]
  simp [hr]

/-- Witness for C5: after confirming `"Rivera" → employee 2` and then a
later unrelated confirmation, `findMatch` on `"RIVERA!"` returns employee
2 with confidence 100 from storage. -/
theorem findMatch_after_confirmation_witness :
    findMatch ([(⟨"Lopez", "5234", 7, "d2", false⟩ : MatchMapping)].foldl
        (fun s m => addMapping m s)
        (addMapping ⟨"Rivera", "2", 5, "d1", true⟩ []))
      [⟨"1", "CARLOS RIVERA"⟩, ⟨"2", "JOSE RIVERA"⟩] "RIVERA!"
      = ⟨"RIVERA!", some ⟨"2", "JOSE RIVERA"⟩, 100, true, []⟩ :=
  findMatch_after_confirmation [] [⟨"1", "CARLOS RIVERA"⟩,
      ⟨"2", "JOSE RIVERA"⟩] ⟨"Rivera", "2", 5, "d1", true⟩
    ⟨"2", "JOSE RIVERA"⟩ [⟨"Lopez", "5234", 7, "d2", false⟩] "RIVERA!"
    (by decide) (by decide) (by decide)

end RefereePay
